import Mathlib

/-!
Shallow embedding of the trycmd registration-and-execution core (`src/cases.rs`).

Rust strings are modelled by Lean `String` with character-level operations on
`String.data`; OS-native strings (`OsString`) by an inductive that is either valid
UTF-8 or not.  The interior-mutable `TestCases` registry becomes explicit state
passing, and its lifetime (explicit `run()` calls followed by the one `drop`) is a
fold of trigger events over a process state that records the registry, how many
times the external runner collaborator was executed, and whether the process
aborted.  Collaborator code that lives outside `src/cases.rs` (`RunnerSpec`,
`Mode::initialize`) is modelled from the spec, as marked in the doc comments.
-/

namespace Trycmd

/-- An OS-native string (`std::ffi::OsString`): either valid UTF-8 or not. -/
inductive OsString where
  | utf8 : String → OsString
  | nonUtf8 : OsString
deriving DecidableEq

/-- Embeds `OsString::into_string` as used by `parse_include` (src/cases.rs:117):
the `flat_map` keeps only the `Ok` (valid UTF-8) results, so the embedding returns
`some` exactly on valid UTF-8. -/
def OsString.into_string : OsString → Option String
  | OsString.utf8 s => some s
  | OsString.nonUtf8 => none

/-- Embeds `crate::CommandStatus` (the expected-outcome enumeration). -/
inductive CommandStatus where
  | Pass : CommandStatus
  | Fail : CommandStatus
  | Interrupted : CommandStatus
  | Skip : CommandStatus
deriving DecidableEq

/-- Embeds `crate::Bin` (executable reference: by path or by name). -/
inductive Bin where
  | Path : String → Bin
  | Name : String → Bin
deriving DecidableEq

/-- Embeds `crate::Mode` (src spec §4.3): what the runner does on divergence. -/
inductive Mode where
  | Fail : Mode
  | Overwrite : Mode
  | Dump : String → Mode
deriving DecidableEq

/-- Embeds `parse_mode` (src/cases.rs:139-147): exact `OsStr` comparison against
`"overwrite"` and `"dump"`, everything else (unset, non-UTF-8, anything else)
falls through to `Mode.Fail`. -/
def parse_mode (var : Option OsString) : Mode :=
  if var = some (OsString.utf8 "overwrite") then Mode.Overwrite
  else if var = some (OsString.utf8 "dump") then Mode.Dump "dump"
  else Mode.Fail

/-- Embeds the per-argument closure inside `parse_include` (src/cases.rs:118-129):
`arg.strip_prefix("trycmd=")` keeps the remainder after the prefix, and an empty
remainder is discarded. -/
def filterArg (arg : String) : Option String :=
  if "trycmd=".data.isPrefixOf arg.data then
    let remainder : String := ⟨arg.data.drop "trycmd=".data.length⟩
    if remainder.isEmpty then none else some remainder
  else none

/-- Embeds `parse_include` (src/cases.rs:114-137): convert each argument to UTF-8
(dropping failures), collect the non-empty `trycmd=` remainders, and return `none`
when no filter was collected. -/
def parse_include (args : List OsString) : Option (List String) :=
  let filters := (args.filterMap OsString.into_string).filterMap filterArg
  if filters.isEmpty then none else some filters

/-- Modelled from the spec: the insert-or-overwrite operation of the runner spec's
default-environment map (§4.1 `env`): "keys are unique — a repeated key replaces the
prior value; order of distinct keys ... should be preserved".  A present key is
replaced in place; a new key is appended at the end. -/
def envInsert (l : List (String × String)) (key value : String) : List (String × String) :=
  match l with
  | [] => [(key, value)]
  | p :: rest =>
    if p.1 = key then (key, value) :: rest else p :: envInsert rest key value

/-- Modelled from the spec: the configuration accumulated by the external
`crate::RunnerSpec` collaborator (§3): case list, default executable, default
timeout, default environment variables, inclusion filter.  `RunnerSpec` itself is
not part of `src/cases.rs`. -/
structure RunnerSpec where
  cases : List (String × Option CommandStatus)
  defaultBin : Option Bin
  timeoutDur : Option Nat
  envVars : List (String × String)
  inclusionFilter : Option (List String)
deriving DecidableEq

/-- Modelled from the spec: `RunnerSpec::case` registers a glob pattern with an
optional expected-status override (appended; no validation at registration time). -/
def RunnerSpec.case (r : RunnerSpec) (glob : String) (status : Option CommandStatus) :
    RunnerSpec :=
  { r with cases := r.cases ++ [(glob, status)] }

/-- Modelled from the spec: `RunnerSpec::default_bin` sets the default executable
reference (last call wins). -/
def RunnerSpec.default_bin (r : RunnerSpec) (bin : Option Bin) : RunnerSpec :=
  { r with defaultBin := bin }

/-- Modelled from the spec: `RunnerSpec::timeout` sets the default per-case timeout
(last call wins). -/
def RunnerSpec.timeout (r : RunnerSpec) (time : Option Nat) : RunnerSpec :=
  { r with timeoutDur := time }

/-- Modelled from the spec: `RunnerSpec::env` inserts or overwrites one default
environment variable. -/
def RunnerSpec.env (r : RunnerSpec) (key value : String) : RunnerSpec :=
  { r with envVars := envInsert r.envVars key value }

/-- Modelled from the spec: `RunnerSpec::include` installs the inclusion filter
computed by `parse_include`. -/
def RunnerSpec.includeFilter (r : RunnerSpec) (filters : Option (List String)) :
    RunnerSpec :=
  { r with inclusionFilter := filters }

/-- Modelled from the spec: `RunnerSpec::default()` — empty configuration. -/
def RunnerSpec.default : RunnerSpec := ⟨[], none, none, [], none⟩

/-- Embeds `TestCases` (src/cases.rs:1-5): the runner spec (behind a `RefCell` in
Rust, explicit state here) plus the one-shot `has_run` flag (a `Cell<bool>`). -/
structure TestCases where
  runner : RunnerSpec
  has_run : Bool
deriving DecidableEq

/-- Embeds `TestCases::new` (src/cases.rs:8-14): start from the default
configuration and seed the inclusion filter from the process arguments. -/
def TestCases.new (args : List OsString) : TestCases :=
  { runner := RunnerSpec.default.includeFilter (parse_include args), has_run := false }

/-- Embeds `TestCases::case` (src/cases.rs:17-20). -/
def TestCases.case (tc : TestCases) (glob : String) : TestCases :=
  { tc with runner := tc.runner.case glob none }

/-- Embeds `TestCases::pass` (src/cases.rs:23-28). -/
def TestCases.pass (tc : TestCases) (glob : String) : TestCases :=
  { tc with runner := tc.runner.case glob (some CommandStatus.Pass) }

/-- Embeds `TestCases::fail` (src/cases.rs:31-36). -/
def TestCases.fail (tc : TestCases) (glob : String) : TestCases :=
  { tc with runner := tc.runner.case glob (some CommandStatus.Fail) }

/-- Embeds `TestCases::interrupted` (src/cases.rs:39-44). -/
def TestCases.interrupted (tc : TestCases) (glob : String) : TestCases :=
  { tc with runner := tc.runner.case glob (some CommandStatus.Interrupted) }

/-- Embeds `TestCases::skip` (src/cases.rs:47-52). -/
def TestCases.skip (tc : TestCases) (glob : String) : TestCases :=
  { tc with runner := tc.runner.case glob (some CommandStatus.Skip) }

/-- Embeds `TestCases::default_bin_path` (src/cases.rs:55-59). -/
def TestCases.default_bin_path (tc : TestCases) (path : String) : TestCases :=
  { tc with runner := tc.runner.default_bin (some (Bin.Path path)) }

/-- Embeds `TestCases::default_bin_name` (src/cases.rs:62-66). -/
def TestCases.default_bin_name (tc : TestCases) (name : String) : TestCases :=
  { tc with runner := tc.runner.default_bin (some (Bin.Name name)) }

/-- Embeds `TestCases::timeout` (src/cases.rs:69-72); durations are modelled as
natural numbers. -/
def TestCases.timeout (tc : TestCases) (time : Nat) : TestCases :=
  { tc with runner := tc.runner.timeout (some time) }

/-- Embeds `TestCases::env` (src/cases.rs:75-78). -/
def TestCases.env (tc : TestCases) (key value : String) : TestCases :=
  { tc with runner := tc.runner.env key value }

/-- The process environment an execution trigger runs in: the value of the `TRYCMD`
variable and whether creating the dump destination would succeed. -/
structure ProcEnv where
  trycmdVar : Option OsString
  dumpDirOk : Bool
deriving DecidableEq

/-- Modelled from the spec: `Mode::initialize` (mode-specific preparation, §4.2
step 2), which is not part of `src/cases.rs`.  For dump mode the destination must
be created, which can fail (the `dumpDirOk` oracle); the other modes have nothing
to prepare and cannot fail. -/
def Mode.prep (m : Mode) (dumpDirOk : Bool) : Except Unit Unit :=
  match m with
  | Mode.Dump _ => if dumpDirOk then Except.ok () else Except.error ()
  | _ => Except.ok ()

/-- The observable state of one registry lifetime: the registry, how many times the
external runner collaborator has executed, and whether the process aborted (a failed
`unwrap` of mode preparation). -/
structure ProcessState where
  tc : TestCases
  runnerExecs : Nat
  aborted : Bool
deriving DecidableEq

/-- Embeds `TestCases::run` (src/cases.rs:83-90): first set `has_run`, then resolve
the mode from the environment, run mode preparation (`unwrap()` aborts the process
on failure), then hand the prepared spec to the runner collaborator — observed here
as one more runner execution.  An already-aborted process executes nothing. -/
def runTrigger (env : ProcEnv) (ps : ProcessState) : ProcessState :=
  if ps.aborted then ps
  else
    let ps' := { ps with tc := { ps.tc with has_run := true } }
    match Mode.prep (parse_mode env.trycmdVar) env.dumpDirOk with
    | Except.error _ => { ps' with aborted := true }
    | Except.ok _ => { ps' with runnerExecs := ps'.runnerExecs + 1 }

/-- Embeds `Drop for TestCases` (src/cases.rs:96-102): at scope exit, call `run`
only if `has_run` is still false and the thread is not panicking. -/
def dropTrigger (env : ProcEnv) (panicking : Bool) (ps : ProcessState) : ProcessState :=
  if !ps.tc.has_run && !panicking then runTrigger env ps else ps

/-- One trigger event in a registry's lifetime: an explicit `run()` call, or the
scope-exit `drop` (with the thread either panicking or not). -/
inductive Trigger where
  | explicitRun : Trigger
  | scopeDrop : Bool → Trigger
deriving DecidableEq

/-- Dispatch one trigger event. -/
def step (env : ProcEnv) (ps : ProcessState) : Trigger → ProcessState
  | Trigger.explicitRun => runTrigger env ps
  | Trigger.scopeDrop p => dropTrigger env p ps

/-- The state a fresh registry starts its lifetime in: no runner execution yet and
the process alive. -/
def initialState (tc : TestCases) : ProcessState := ⟨tc, 0, false⟩

/-- The state after a sequence of trigger events on a fresh registry. -/
def execTrace (env : ProcEnv) (tc : TestCases) (ts : List Trigger) : ProcessState :=
  ts.foldl (step env) (initialState tc)

/-- Helper: `run()` sets the `has_run` flag whatever mode preparation does, as long
as the process is still alive (src/cases.rs:84 runs before anything can fail). -/
theorem runTrigger_has_run (env : ProcEnv) (ps : ProcessState) (h : ps.aborted = false) :
    (runTrigger env ps).tc.has_run = true := by
  unfold runTrigger
  cases hm : Mode.prep (parse_mode env.trycmdVar) env.dumpDirOk <;> simp [h, hm]

/-- Helper: once `has_run` is set, the drop trigger is a complete no-op. -/
theorem dropTrigger_noop_of_has_run (env : ProcEnv) (p : Bool) (ps : ProcessState)
    (h : ps.tc.has_run = true) : dropTrigger env p ps = ps := by
  simp [dropTrigger, h]

/-- Claim C1 (counterexample): two explicit `run()` calls on one fresh registry, in
a plain environment (`TRYCMD` unset), execute the underlying runner twice — not
once, as the claim states: `run()` (src/cases.rs:83-90) never consults `has_run`,
it only sets it, so only the drop-time trigger is suppressed. -/
theorem claim_C1_counterexample :
    (execTrace ⟨none, true⟩ (TestCases.new [])
        [Trigger.explicitRun, Trigger.explicitRun]).runnerExecs = 2 ∧
    ¬ (execTrace ⟨none, true⟩ (TestCases.new [])
        [Trigger.explicitRun, Trigger.explicitRun]).runnerExecs = 1 := by
  decide

/-- Claim C1 (amended): the at-most-once guarantee is carried by the automatic
trigger alone: after an explicit `run()`, the scope-exit drop is a complete no-op,
so the run-then-drop lifetime executes the runner exactly once (when mode
preparation succeeds); but `run()` itself is unguarded, and calling it twice
executes the runner twice. -/
theorem claim_C1_run_then_drop_once (env : ProcEnv) (p : Bool) (tc : TestCases) :
    execTrace env tc [Trigger.explicitRun, Trigger.scopeDrop p] =
      execTrace env tc [Trigger.explicitRun] ∧
    ((parse_mode env.trycmdVar).prep env.dumpDirOk = Except.ok () →
      (execTrace env tc [Trigger.explicitRun, Trigger.scopeDrop p]).runnerExecs = 1) ∧
    (execTrace ⟨none, true⟩ (TestCases.new [])
        [Trigger.explicitRun, Trigger.explicitRun]).runnerExecs = 2 := by
  have h1 : (runTrigger env (initialState tc)).tc.has_run = true :=
    runTrigger_has_run env (initialState tc) rfl
  have hdrop : dropTrigger env p (runTrigger env (initialState tc)) =
      runTrigger env (initialState tc) :=
    dropTrigger_noop_of_has_run env p _ h1
  refine ⟨hdrop, fun hok => ?_, by decide⟩
  show (dropTrigger env p (runTrigger env (initialState tc))).runnerExecs = 1
  rw [hdrop]
  simp [runTrigger, initialState, hok]

/-- Claim C4: on a registry whose explicit trigger was never called (its `has_run`
flag still false), a scope-exit drop with no panic propagating executes the runner
exactly once, provided mode preparation succeeds; and in general such a drop
increments the runner-execution count by exactly one. -/
theorem claim_C4_auto_run_on_normal_drop (env : ProcEnv) (tc : TestCases)
    (hfresh : tc.has_run = false)
    (hok : (parse_mode env.trycmdVar).prep env.dumpDirOk = Except.ok ()) :
    (execTrace env tc [Trigger.scopeDrop false]).runnerExecs = 1 ∧
    ∀ ps : ProcessState, ps.tc.has_run = false → ps.aborted = false →
      (dropTrigger env false ps).runnerExecs = ps.runnerExecs + 1 := by
  have key : ∀ ps : ProcessState, ps.tc.has_run = false → ps.aborted = false →
      (dropTrigger env false ps).runnerExecs = ps.runnerExecs + 1 := by
    intro ps hr ha
    simp [dropTrigger, hr, runTrigger, ha, hok]
  exact ⟨key (initialState tc) hfresh rfl, key⟩

/-- Witness for claim C4 at a fresh registry and a plain environment. -/
theorem claim_C4_witness :
    (TestCases.new []).has_run = false ∧
    (parse_mode (none : Option OsString)).prep true = Except.ok () ∧
    (execTrace ⟨none, true⟩ (TestCases.new []) [Trigger.scopeDrop false]).runnerExecs = 1 :=
  ⟨rfl, rfl, (claim_C4_auto_run_on_normal_drop ⟨none, true⟩ (TestCases.new []) rfl rfl).1⟩

/-- Claim C5: the scope-exit drop of a registry while the thread is panicking
triggers no execution at all — it leaves the whole process state untouched,
whether it arrives as a single event or at the end of any trigger sequence. -/
theorem claim_C5_no_auto_run_while_panicking (env : ProcEnv) (ps : ProcessState)
    (tc : TestCases) (ts : List Trigger) :
    dropTrigger env true ps = ps ∧
    execTrace env tc (ts ++ [Trigger.scopeDrop true]) = execTrace env tc ts := by
  constructor
  · simp [dropTrigger]
  · unfold execTrace
    rw [List.foldl_append]
    simp [step, dropTrigger]

/-- Claim C6: when mode-specific preparation fails during a trigger, the process
aborts immediately (`unwrap` of the preparation result) and the trigger never
reaches the runner hand-off: the runner-execution count is unchanged. -/
theorem claim_C6_prep_failure_aborts (env : ProcEnv) (ps : ProcessState)
    (halive : ps.aborted = false)
    (hfail : (parse_mode env.trycmdVar).prep env.dumpDirOk = Except.error ()) :
    (runTrigger env ps).aborted = true ∧
    (runTrigger env ps).runnerExecs = ps.runnerExecs := by
  constructor <;> simp [runTrigger, halive, hfail]

/-- Witness for claim C6: dump mode with a destination that cannot be created. -/
theorem claim_C6_witness :
    (initialState (TestCases.new [])).aborted = false ∧
    (parse_mode (some (OsString.utf8 "dump"))).prep false = Except.error () ∧
    (runTrigger ⟨some (OsString.utf8 "dump"), false⟩
        (initialState (TestCases.new []))).aborted = true :=
  ⟨rfl, rfl,
    (claim_C6_prep_failure_aborts ⟨some (OsString.utf8 "dump"), false⟩
      (initialState (TestCases.new [])) rfl rfl).1⟩

/-- Claim C10: `run()` sets the `has_run` flag as its very first step
(src/cases.rs:84), before mode resolution and preparation; so after any `run()`
call on a live process — including one that aborted during preparation — the
scope-exit drop performs no automatic execution. -/
theorem claim_C10_flag_set_before_prep (env env' : ProcEnv) (p : Bool)
    (ps : ProcessState) (halive : ps.aborted = false) :
    (runTrigger env ps).tc.has_run = true ∧
    dropTrigger env' p (runTrigger env ps) = runTrigger env ps :=
  ⟨runTrigger_has_run env ps halive,
   dropTrigger_noop_of_has_run env' p _ (runTrigger_has_run env ps halive)⟩

/-- Helper: a string built from a character list is empty iff the list is. -/
theorem mk_isEmpty_iff (l : List Char) : (⟨l⟩ : String).isEmpty = true ↔ l = [] := by
  rw [String.isEmpty_iff, show ("" : String) = ⟨[]⟩ from rfl]
  exact ⟨fun h => by injection h, fun h => by rw [h]⟩

/-- Helper: the per-argument filter yields nothing exactly when the argument either
lacks the `trycmd=` prefix or has an empty remainder after it. -/
theorem filterArg_eq_none_iff (s : String) :
    filterArg s = none ↔
      ("trycmd=".data.isPrefixOf s.data = true →
        s.data.drop "trycmd=".data.length = []) := by
  unfold filterArg
  by_cases h : "trycmd=".data.isPrefixOf s.data = true
  · by_cases h2 : s.data.drop "trycmd=".data.length = []
    · simp [h, h2, mk_isEmpty_iff]
    · simp [h, h2, mk_isEmpty_iff]
  · simp [h]

/-- Helper: `parse_include` returns `none` exactly when the collected filter list
is empty. -/
theorem parse_include_eq_none (args : List OsString) :
    parse_include args = none ↔
      (args.filterMap OsString.into_string).filterMap filterArg = [] := by
  unfold parse_include
  by_cases h : (args.filterMap OsString.into_string).filterMap filterArg = []
  · simp [h]
  · simp [h, List.isEmpty_iff]

/-- Helper: membership in a returned filter is membership in the collected list. -/
theorem parse_include_mem (args : List OsString) (f : String) :
    (∃ l, parse_include args = some l ∧ f ∈ l) ↔
      f ∈ (args.filterMap OsString.into_string).filterMap filterArg := by
  unfold parse_include
  by_cases h : (args.filterMap OsString.into_string).filterMap filterArg = []
  · simp [h]
  · simp [h, List.isEmpty_iff]

/-- Claim C2: `parse_mode` is total on an optional environment value and maps
exactly `"overwrite"` to `Overwrite`, exactly `"dump"` to `Dump "dump"` (the fixed
destination), and everything else — absence, any other string, non-UTF-8 — to
`Fail`; matching is case-sensitive and exact. -/
theorem claim_C2_parse_mode (var : Option OsString) :
    (parse_mode var = Mode.Overwrite ↔ var = some (OsString.utf8 "overwrite")) ∧
    (parse_mode var = Mode.Dump "dump" ↔ var = some (OsString.utf8 "dump")) ∧
    (parse_mode var = Mode.Fail ↔
      (var ≠ some (OsString.utf8 "overwrite") ∧ var ≠ some (OsString.utf8 "dump"))) := by
  by_cases h1 : var = some (OsString.utf8 "overwrite")
  · subst h1
    exact ⟨by decide, by decide, by decide⟩
  · by_cases h2 : var = some (OsString.utf8 "dump")
    · subst h2
      exact ⟨by decide, by decide, by decide⟩
    · simp [parse_mode, h1, h2]

/-- Claim C3: `parse_include` returns `none` exactly when no argument converts to
UTF-8, starts with `trycmd=`, and has a non-empty remainder; and on the argument
list `["x", "trycmd=foo", "trycmd=", "trycmd=bar"]` it collects exactly `"foo"`
and `"bar"`, discarding the empty remainder. -/
theorem claim_C3_parse_include :
    (∀ args : List OsString, parse_include args = none ↔
      ∀ a ∈ args, ∀ s, OsString.into_string a = some s →
        "trycmd=".data.isPrefixOf s.data = true →
          s.data.drop "trycmd=".data.length = []) ∧
    parse_include [OsString.utf8 "x", OsString.utf8 "trycmd=foo", OsString.utf8 "trycmd=",
        OsString.utf8 "trycmd=bar"] = some ["foo", "bar"] := by
  constructor
  · intro args
    rw [parse_include_eq_none, List.filterMap_eq_nil_iff]
    constructor
    · intro h a ha s hs
      exact (filterArg_eq_none_iff s).mp (h s (List.mem_filterMap.mpr ⟨a, ha, hs⟩))
    · intro h s hs
      obtain ⟨a, ha, hs'⟩ := List.mem_filterMap.mp hs
      exact (filterArg_eq_none_iff s).mpr (h a ha s hs')
  · decide

/-- Claim C8: the filter computed by `parse_include` is permutation-invariant as a
set: permuted argument lists give `none` together, and any string is a member of
the one result exactly when it is a member of the other. -/
theorem claim_C8_filter_perm_invariant (args args' : List OsString)
    (h : args.Perm args') :
    (parse_include args = none ↔ parse_include args' = none) ∧
    ∀ f : String, (∃ l, parse_include args = some l ∧ f ∈ l) ↔
      (∃ l, parse_include args' = some l ∧ f ∈ l) := by
  have hp : ((args.filterMap OsString.into_string).filterMap filterArg).Perm
      ((args'.filterMap OsString.into_string).filterMap filterArg) :=
    (h.filterMap OsString.into_string).filterMap filterArg
  constructor
  · rw [parse_include_eq_none, parse_include_eq_none]
    constructor
    · intro e; exact (e ▸ hp).symm.eq_nil
    · intro e; exact (e ▸ hp).eq_nil
  · intro f
    rw [parse_include_mem, parse_include_mem]
    exact hp.mem_iff

/-- Witness for claim C8 at a concrete transposition of two arguments. -/
theorem claim_C8_witness :
    List.Perm [OsString.utf8 "trycmd=a", OsString.utf8 "b"]
      [OsString.utf8 "b", OsString.utf8 "trycmd=a"] ∧
    ((∃ l, parse_include [OsString.utf8 "trycmd=a", OsString.utf8 "b"] = some l ∧ "a" ∈ l) ↔
      (∃ l, parse_include [OsString.utf8 "b", OsString.utf8 "trycmd=a"] = some l ∧ "a" ∈ l)) :=
  ⟨by decide,
    (claim_C8_filter_perm_invariant [OsString.utf8 "trycmd=a", OsString.utf8 "b"]
      [OsString.utf8 "b", OsString.utf8 "trycmd=a"] (by decide)).2 "a"⟩

/-- Claim C9: a non-UTF-8 process argument is silently discarded by
`parse_include` before prefix matching: inserting one anywhere in the argument
list leaves the result unchanged, so it can never contribute a filter substring
and never causes an error. -/
theorem claim_C9_non_utf8_discarded (l1 l2 : List OsString) :
    parse_include (l1 ++ OsString.nonUtf8 :: l2) = parse_include (l1 ++ l2) := by
  have h : (l1 ++ OsString.nonUtf8 :: l2).filterMap OsString.into_string
      = (l1 ++ l2).filterMap OsString.into_string := by
    simp [List.filterMap_append, List.filterMap_cons, OsString.into_string]
  simp only [parse_include, h]

/-- Helper: filtering a key that is not among the entries' keys gives nothing. -/
theorem filter_keys_nil (l : List (String × String)) (k : String)
    (h : ¬ k ∈ l.map Prod.fst) : l.filter (fun kv => kv.1 == k) = [] := by
  induction l with
  | nil => rfl
  | cons a t ih =>
    simp only [List.map_cons, List.mem_cons, not_or] at h
    have h1 : ¬ a.1 = k := fun e => h.1 e.symm
    simp [List.filter_cons, h1, ih h.2]

/-- Helper: every key of `envInsert l k v` is a key of `l` or the inserted key. -/
theorem mem_keys_envInsert (l : List (String × String)) (k v a : String)
    (h : a ∈ (envInsert l k v).map Prod.fst) : a ∈ l.map Prod.fst ∨ a = k := by
  induction l with
  | nil =>
    simp [envInsert] at h
    simp [h]
  | cons p t ih =>
    by_cases hk : p.1 = k
    · simp only [envInsert, if_pos hk, List.map_cons, List.mem_cons] at h
      rcases h with h | h
      · exact Or.inr h
      · exact Or.inl (by simp only [List.map_cons, List.mem_cons]; exact Or.inr h)
    · simp only [envInsert, if_neg hk, List.map_cons, List.mem_cons] at h
      rcases h with h | h
      · exact Or.inl (by simp only [List.map_cons, List.mem_cons]; exact Or.inl h)
      · rcases ih h with h' | h'
        · exact Or.inl (by simp only [List.map_cons, List.mem_cons]; exact Or.inr h')
        · exact Or.inr h'

/-- Helper: inserting into a unique-key map keeps the keys unique. -/
theorem envInsert_keys_nodup (l : List (String × String)) (k v : String)
    (h : (l.map Prod.fst).Nodup) : ((envInsert l k v).map Prod.fst).Nodup := by
  induction l with
  | nil => simp [envInsert]
  | cons p t ih =>
    simp only [List.map_cons, List.nodup_cons] at h
    by_cases hk : p.1 = k
    · simp only [envInsert, if_pos hk, List.map_cons, List.nodup_cons]
      exact ⟨fun hmem => h.1 (hk.symm ▸ hmem), h.2⟩
    · simp only [envInsert, if_neg hk, List.map_cons, List.nodup_cons]
      refine ⟨fun hmem => ?_, ih h.2⟩
      rcases mem_keys_envInsert t k v p.1 hmem with hc | hc
      · exact h.1 hc
      · exact hk hc

/-- Helper: on a unique-key map, the inserted key ends up with exactly one entry,
carrying the inserted value. -/
theorem filter_envInsert (l : List (String × String)) (k v : String)
    (h : (l.map Prod.fst).Nodup) :
    (envInsert l k v).filter (fun kv => kv.1 == k) = [(k, v)] := by
  induction l with
  | nil => simp [envInsert]
  | cons p t ih =>
    simp only [List.map_cons, List.nodup_cons] at h
    by_cases hk : p.1 = k
    · simp [envInsert, if_pos hk, List.filter_cons,
        filter_keys_nil t k (hk ▸ h.1)]
    · simp [envInsert, if_neg hk, List.filter_cons, hk, ih h.2]

/-- Claim C7: the default environment map is last-write-wins with unique keys: on
any registry whose accumulated environment has unique keys, `env "K" "1"` followed
by `env "K" "2"` leaves exactly one entry for key `"K"` in the configuration, and
its value is `"2"`. -/
theorem claim_C7_env_last_write_wins (tc : TestCases)
    (h : (tc.runner.envVars.map Prod.fst).Nodup) :
    ((tc.env "K" "1").env "K" "2").runner.envVars.filter (fun kv => kv.1 == "K")
      = [("K", "2")] := by
  show (envInsert (envInsert tc.runner.envVars "K" "1") "K" "2").filter
      (fun kv => kv.1 == "K") = [("K", "2")]
  exact filter_envInsert _ "K" "2" (envInsert_keys_nodup _ "K" "1" h)

/-- Witness for claim C7 on a fresh registry. -/
theorem claim_C7_witness :
    ((TestCases.new []).runner.envVars.map Prod.fst).Nodup ∧
    (((TestCases.new []).env "K" "1").env "K" "2").runner.envVars.filter
        (fun kv => kv.1 == "K") = [("K", "2")] :=
  ⟨by decide, claim_C7_env_last_write_wins (TestCases.new []) (by decide)⟩

/-- Witness for claim C10: a `run()` that fails during dump-mode preparation still
leaves the flag set, and the later drop is a no-op. -/
theorem claim_C10_witness :
    (initialState (TestCases.new [])).aborted = false ∧
    dropTrigger ⟨none, true⟩ false
        (runTrigger ⟨some (OsString.utf8 "dump"), false⟩ (initialState (TestCases.new []))) =
      runTrigger ⟨some (OsString.utf8 "dump"), false⟩ (initialState (TestCases.new [])) :=
  ⟨rfl,
    (claim_C10_flag_set_before_prep ⟨some (OsString.utf8 "dump"), false⟩ ⟨none, true⟩
      false (initialState (TestCases.new [])) rfl).2⟩

end Trycmd
